import Mathlib

/-!
Verification development for the HPL interpreter runtime
(`hpl_runtime/evaluator.py`, `hpl_runtime/ast_parser.py`,
`hpl_runtime/parser.py`, `hpl_runtime/module_loader.py`).

The Python runtime is shallowly embedded: Python dicts used as scopes
become association lists with in-place-update insertion, Python lists
(mutable, aliased) become heap addresses into an explicit heap, Python
exceptions become an explicit error type threaded through an `Except`
result, and the tree-walking evaluator becomes a fuel-indexed
interpreter (`none` = fuel exhausted / outside the model; every
terminating Python execution is reproduced at a large enough fuel).
-/

namespace HPL

/-- Association-list lookup: first binding wins.  This models reading a
Python dict built by the insertion operation below, which keeps keys
unique. -/
def lookupA {α : Type} : List (String × α) → String → Option α
  | [], _ => none
  | (k, v) :: rest, key => if k = key then some v else lookupA rest key

/-- Association-list insertion mirroring Python dict assignment
`d[k] = v`: if the key is present its value is replaced in place
(keeping insertion order), otherwise the binding is appended. -/
def insertA {α : Type} : List (String × α) → String → α → List (String × α)
  | [], key, v => [(key, v)]
  | (k, w) :: rest, key, v =>
      if k = key then (k, v) :: rest else (k, w) :: insertA rest key v

/-- An abstract standard-library / host module record.
Modelled from the spec: the concrete `HPLModule` class lives in
`module_base.py`, which is not part of the sources at hand; §3 of the
spec describes the module record as a name plus maps of functions and
constants.  Only the record's identity matters for the memoisation
claim, so functions are represented by opaque tag numbers. -/
structure HPLModule where
  name : String
  functions : List (String × Nat)
  constants : List (String × Nat)
deriving DecidableEq

/-- The four resolution steps tried by `load_module`
(`module_loader.py`): the registered standard library (`get_module`),
host-language (Python) packages, local `.hpl` script modules and local
host module files.  The last three perform file-system and
host-importer I/O, so they are abstracted as lookup functions fixed for
one execution; the cache logic under verification never calls a
resolver twice for the same name, so nothing depends on this
abstraction beyond the resolvers' signatures. -/
structure Resolver where
  stdlib : String → Option HPLModule
  pythonPkg : String → Option HPLModule
  hplFile : String → Option HPLModule
  pyFile : String → Option HPLModule

/-- The module cache `_module_cache` of `module_loader.py`. -/
abbrev ModCache := List (String × HPLModule)

/-- Embedding of `load_module` (`module_loader.py`, lines 74-114): the
cache is consulted before any resolution step; each successful
resolution stores the module in the cache; a total miss raises
`ImportError`. -/
def load_module (R : Resolver) (module_name : String) (cache : ModCache) :
    Except String (HPLModule × ModCache) :=
  match lookupA cache module_name with
  | some m => .ok (m, cache)
  | none =>
    match R.stdlib module_name with
    | some m => .ok (m, insertA cache module_name m)
    | none =>
      match R.pythonPkg module_name with
      | some m => .ok (m, insertA cache module_name m)
      | none =>
        match R.hplFile module_name with
        | some m => .ok (m, insertA cache module_name m)
        | none =>
          match R.pyFile module_name with
          | some m => .ok (m, insertA cache module_name m)
          | none => .error ("Module '" ++ module_name ++ "' not found")

/-- Statement AST nodes (`models.py`).  Blocks (`BlockStatement`) are
lists of statements; `for`, `while`, `if` and `try` carry their blocks
directly.  `ImportStatement` is omitted here: the module system is
modelled separately above, at the `load_module` level where its claim
lives. -/
inductive Expr where
  | intLit (value : Int)
  | floatLit (value : Rat)
  | strLit (value : String)
  | boolLit (value : Bool)
  | var (name : String)
  | binop (left : Expr) (op : String) (right : Expr)
  | unop (op : String) (operand : Expr)
  | funcCall (func_name : String) (args : List Expr)
  | methodCall (obj_name : Expr) (method_name : String) (args : List Expr)
  | postIncr (var_name : String)
  | arrayLit (elements : List Expr)
  | arrayAccess (array : Expr) (index : Expr)
deriving Repr

inductive Stmt where
  | assign (var_name : String) (expr : Expr)
  | arrayAssign (array_name : String) (index_expr : Expr) (value_expr : Expr)
  | ret (expr : Option Expr)
  | ifStmt (condition : Expr) (then_block : List Stmt) (else_block : Option (List Stmt))
  | forStmt (init : Stmt) (condition : Expr) (increment_expr : Expr) (body : List Stmt)
  | whileStmt (condition : Expr) (body : List Stmt)
  | breakStmt
  | continueStmt
  | tryCatch (try_block : List Stmt) (catch_var : String) (catch_block : List Stmt)
  | echo (expr : Expr)
  | increment (var_name : String)
  | block (statements : List Stmt)
  | exprStmt (expr : Expr)
deriving Repr

/-- `HPLFunction` (`models.py`): positional parameter names and a body. -/
structure HPLFunction where
  params : List String
  body : List Stmt
deriving Repr

/-- `HPLClass` (`models.py`): name, method table, optional parent class
name (late-bound by name in the evaluator's class table). -/
structure HPLClass where
  name : String
  methods : List (String × HPLFunction)
  parent : Option String
deriving Repr

/-- Runtime values.  Python ints/floats/bools/strs are immutable and
inlined; a Python list is mutable and aliased, so an array value is an
address into an explicit heap.  An `HPLObject` carries its class record
directly, as in Python (its mutable `attributes` dict is omitted: no
embedded statement reads or writes object attributes).  `none` is the
Python `None` produced by value-less returns and built-ins. -/
inductive Value where
  | none
  | int (n : Int)
  | float (q : Rat)
  | bool (b : Bool)
  | str (s : String)
  | arr (addr : Nat)
  | obj (objName : String) (cls : HPLClass)
deriving Repr

/-- The heap holding the contents of every allocated Python list. -/
abbrev Heap := List (List Value)

/-- Scope: a Python dict mapping names to values. -/
abbrev Scope := List (String × Value)

/-- Python exceptions raised by the evaluator.  `breakExc` and
`continueExc` are `BreakException` / `ContinueException`
(`evaluator.py`, lines 33-40); `indexError` keeps the index and length
so that the exact message text is derivable; `hostIndexError` and
`hostKeyError` are the host-level `IndexError` / `KeyError` that escape
from raw Python list/dict subscripts (e.g. `expr.args[0]` on an empty
argument list, `self.classes[...]` on a missing parent name). -/
inductive Err where
  | typeError (msg : String)
  | valueError (msg : String)
  | indexError (index : Int) (length : Nat)
  | zeroDiv (msg : String)
  | importError (msg : String)
  | hostIndexError (msg : String)
  | hostKeyError (key : String)
  | breakExc
  | continueExc
deriving Repr

/-- Python `str(e)` on a caught exception, used by the `catch` binding
(`local_scope[stmt.catch_var] = str(e)`).  `str` of an argument-less
`BreakException()` / `ContinueException()` is the empty string; `str`
of a `KeyError` is the quoted key. -/
def errStr : Err → String
  | .typeError msg => msg
  | .valueError msg => msg
  | .indexError index length =>
      "Array index " ++ toString index ++ " out of bounds (length: " ++
        toString length ++ ")"
  | .zeroDiv msg => msg
  | .importError msg => msg
  | .hostIndexError msg => msg
  | .hostKeyError key => "'" ++ key ++ "'"
  | .breakExc => ""
  | .continueExc => ""

/-- Python `type(x).__name__` for the embedded values. -/
def pyTypeName : Value → String
  | .none => "NoneType"
  | .int _ => "int"
  | .float _ => "float"
  | .bool _ => "bool"
  | .str _ => "str"
  | .arr _ => "list"
  | .obj _ _ => "HPLObject"

/-- Python `isinstance(x, (int, float))`: true for ints, floats and
also bools (`bool` is a subclass of `int` in Python, so every numeric
check in `evaluator.py` accepts booleans). -/
def isNum : Value → Bool
  | .int _ => true
  | .float _ => true
  | .bool _ => true
  | _ => false

/-- Python `isinstance(x, int)`: ints and bools. -/
def isIntLike : Value → Bool
  | .int _ => true
  | .bool _ => true
  | _ => false

/-- Numeric value of an int-like value (booleans count as 0 / 1). -/
def toIntVal : Value → Int
  | .int n => n
  | .bool b => if b then 1 else 0
  | _ => 0

/-- Numeric value of any numeric value as an exact rational.  Python
floats are IEEE doubles; they are modelled as exact rationals, which
agrees with Python on every computation the claims touch (none of
which exercises rounding). -/
def toRat : Value → Rat
  | .int n => (n : Rat)
  | .float q => q
  | .bool b => if b then 1 else 0
  | _ => 0

/-- Whether a numeric value is a float (drives Python's int/float
promotion on arithmetic results). -/
def isFloat : Value → Bool
  | .float _ => true
  | _ => false

/-- Python truthiness `bool(x)`: numbers by non-zero-ness, strings and
lists by non-emptiness, `None` falsy, objects truthy.  A dangling
array address never arises from program execution; it is mapped to
false. -/
def truthy (h : Heap) : Value → Bool
  | .none => false
  | .int n => n != 0
  | .float q => q != 0
  | .bool b => b
  | .str s => s != ""
  | .arr addr =>
      match h.get? addr with
      | some l => !l.isEmpty
      | Option.none => false
  | .obj _ _ => true

mutual

/-- Python `str(x)` for values, with the heap to dereference arrays and
fuel against self-referential lists (Python prints those with a
recursion marker; no claim exercises that case, nor the precise float
formatting, which is approximated by the rational's canonical form). -/
def pyStr (h : Heap) : Nat → Value → String
  | _, .none => "None"
  | _, .int n => toString n
  | _, .float q => toString q
  | _, .bool b => if b then "True" else "False"
  | _, .str s => s
  | 0, .arr _ => "[...]"
  | fuel+1, .arr addr =>
      match h.get? addr with
      | some l =>
          "[" ++ String.intercalate ", " (l.map (fun v => pyReprAux h fuel v)) ++ "]"
      | Option.none => "[?]"
  | _, .obj objName _ => "<HPLObject " ++ objName ++ ">"

/-- Python `repr(x)` as used when printing list elements: like `str`
except that strings are quoted. -/
def pyReprAux (h : Heap) : Nat → Value → String
  | _, .str s => "'" ++ s ++ "'"
  | fuel, v => pyStr h fuel v
end

/-- Python `str(x)` with the standard fuel (heap depth bound). -/
def pyStrH (h : Heap) (v : Value) : String := pyStr h (h.length + 1) v

/-- Python floor-convention modulo on exact rationals (`a % b` for
numbers takes the sign of the divisor, as `Int.fmod` does). -/
def ratPyMod (a b : Rat) : Rat := a - b * (⌊a / b⌋ : Int)

/-- The numeric-operand check `_check_numeric_operands`
(`evaluator.py`, lines 436-441), run for every operator other than
`&&`, `||` and `+` — including the comparison operators, so `==` on
two strings raises `TypeError` in this evaluator. -/
def check_numeric_operands (left right : Value) (op : String) : Except Err Unit :=
  if !isNum left then
    .error (.typeError ("Unsupported operand type for " ++ op ++ ": '" ++
      pyTypeName left ++ "' (expected number)"))
  else if !isNum right then
    .error (.typeError ("Unsupported operand type for " ++ op ++ ": '" ++
      pyTypeName right ++ "' (expected number)"))
  else .ok ()

/-- Addition/subtraction/multiplication with Python's int/float
promotion: the result is a float iff either operand is one (booleans
act as the ints 0 and 1). -/
def numArith (f : Rat → Rat → Rat) (g : Int → Int → Int) (l r : Value) : Value :=
  if isFloat l || isFloat r then .float (f (toRat l) (toRat r))
  else .int (g (toIntVal l) (toIntVal r))

/-- Embedding of `_eval_binary_op` (`evaluator.py`, lines 305-347).
Both operands are already evaluated when this runs (the caller
evaluates left then right unconditionally).  `&&` and `||` are
Python's `and` / `or` on the evaluated values; `+` falls back to
string concatenation of `str(left) + str(right)` when either operand
is non-numeric; every remaining operator first requires numeric
operands; `/` is Python true division (always a float). -/
def eval_binary_op (h : Heap) (left : Value) (op : String) (right : Value) :
    Except Err Value :=
  if op = "&&" then .ok (if truthy h left then right else left)
  else if op = "||" then .ok (if truthy h left then left else right)
  else if op = "+" then
    if isNum left && isNum right then .ok (numArith (· + ·) (· + ·) left right)
    else .ok (.str (pyStrH h left ++ pyStrH h right))
  else
    match check_numeric_operands left right op with
    | .error e => .error e
    | .ok _ =>
      if op = "-" then .ok (numArith (· - ·) (· - ·) left right)
      else if op = "*" then .ok (numArith (· * ·) (· * ·) left right)
      else if op = "/" then
        if toRat right = 0 then .error (.zeroDiv "Division by zero")
        else .ok (.float (toRat left / toRat right))
      else if op = "%" then
        if toRat right = 0 then .error (.zeroDiv "Modulo by zero")
        else if isIntLike left && isIntLike right then
          .ok (.int (Int.fmod (toIntVal left) (toIntVal right)))
        else .ok (.float (ratPyMod (toRat left) (toRat right)))
      else if op = "==" then .ok (.bool (toRat left == toRat right))
      else if op = "!=" then .ok (.bool (toRat left != toRat right))
      else if op = "<" then .ok (.bool (decide (toRat left < toRat right)))
      else if op = "<=" then .ok (.bool (decide (toRat left ≤ toRat right)))
      else if op = ">" then .ok (.bool (decide (toRat right < toRat left)))
      else if op = ">=" then .ok (.bool (decide (toRat right ≤ toRat left)))
      else .error (.valueError ("Unknown operator " ++ op))

/-- The evaluator's execution state.  `local_scope` is the dict passed
through `execute_statement` / `evaluate_expression`; `global_scope` is
`self.global_scope`; the heap holds list contents; `output` collects
the lines printed by `echo`.  The call stack (used only for error
display) and `current_obj` (shadowed by the `this` binding placed in
each method scope) are omitted. -/
structure St where
  local_scope : Scope
  global_scope : Scope
  heap : Heap
  output : List String
deriving Repr

/-- The evaluator's static environment: `self.classes`. -/
structure Env where
  classes : List (String × HPLClass)

/-- Embedding of `_lookup_variable` (`evaluator.py`, lines 349-356):
local scope first, then global, else `ValueError`. -/
def lookup_variable (name : String) (s : St) : Except Err Value :=
  match lookupA s.local_scope name with
  | some v => .ok v
  | Option.none =>
    match lookupA s.global_scope name with
    | some v => .ok v
    | Option.none => .error (.valueError ("Undefined variable: '" ++ name ++ "'"))

/-- Embedding of `_update_variable` (`evaluator.py`, lines 358-366):
update the local binding if present, else the global binding if
present, else create a local binding.  Used by the increment forms;
plain assignment does not go through this function. -/
def update_variable (name : String) (value : Value) (s : St) : St :=
  match lookupA s.local_scope name with
  | some _ => { s with local_scope := insertA s.local_scope name value }
  | Option.none =>
    match lookupA s.global_scope name with
    | some _ => { s with global_scope := insertA s.global_scope name value }
    | Option.none => { s with local_scope := insertA s.local_scope name value }

/-- Method-not-found message raised by `_call_method`. -/
def methodNotFoundMsg (method_name class_name : String) : String :=
  "Method '" ++ method_name ++ "' not found in class '" ++ class_name ++ "'"

/-- The method-resolution step of `_call_method` (`evaluator.py`,
lines 368-376): the object's own method table first, then — only when
the class names a (non-empty) parent — the immediate parent's method
table.  No further ancestor is consulted.  A parent name absent from
the class table raises the host `KeyError` of
`self.classes[hpl_class.parent]`. -/
def lookupMethod (classes : List (String × HPLClass)) (cls : HPLClass)
    (method_name : String) : Except Err HPLFunction :=
  match lookupA cls.methods method_name with
  | some f => .ok f
  | Option.none =>
    match cls.parent with
    | some p =>
      if p = "" then .error (.valueError (methodNotFoundMsg method_name cls.name))
      else
        match lookupA classes p with
        | Option.none => .error (.hostKeyError p)
        | some parent_cls =>
          match lookupA parent_cls.methods method_name with
          | some f => .ok f
          | Option.none => .error (.valueError (methodNotFoundMsg method_name cls.name))
    | Option.none => .error (.valueError (methodNotFoundMsg method_name cls.name))

/-- The parameter-binding dict comprehension of `_call_method`
(`evaluator.py`, line 383):
`{param: args[i] for i, param in enumerate(method.params) if i < len(args)}`.
Pairing each parameter with the argument of the same index and keeping
only indices below `len(args)` is exactly `List.zip`; the dict is
built left to right, so a duplicated parameter name keeps the later
argument, as in Python. -/
def bindParams (params : List String) (args : List Value) : Scope :=
  (params.zip args).foldl (fun sc pv => insertA sc pv.1 pv.2) []

/-- Result of executing a statement: normal completion, a
`ReturnValue` wrapper travelling up to the enclosing function
activation, or a raised Python exception (which `try/catch`, loops and
method calls observe). -/
inductive Res where
  | norm
  | ret (v : Value)
  | exn (e : Err)
deriving Repr

/-- The canonical tag strings returned by the `type` built-in
(`evaluator.py`, lines 226-241); `bool` is tested before `int`, and an
object reports its class name. -/
def pyTypeOf : Value → String
  | .bool _ => "boolean"
  | .int _ => "int"
  | .float _ => "float"
  | .str _ => "string"
  | .arr _ => "array"
  | .obj _ cls => cls.name
  | .none => "NoneType"

/-- Truncation of an exact rational toward zero, as Python `int()` on
a float. -/
def ratTrunc (q : Rat) : Int := if 0 ≤ q then ⌊q⌋ else -⌊-q⌋

/-- Python `int(string)`, approximated by trimming surrounding
whitespace and accepting an optional sign followed by digits (Python
additionally accepts digit-group underscores, which no claim uses). -/
def parseIntPy (s : String) : Option Int := (s.trim).toInt?

/-- The `int` built-in (`evaluator.py`, lines 217-222): ints and bools
pass through, floats truncate toward zero, strings parse or raise
`ValueError`, anything else raises `ValueError` with `str(arg)` in the
message. -/
def pyToInt (h : Heap) (v : Value) : Except Err Value :=
  match v with
  | .int n => .ok (.int n)
  | .bool b => .ok (.int (if b then 1 else 0))
  | .float q => .ok (.int (ratTrunc q))
  | .str s =>
    match parseIntPy s with
    | some n => .ok (.int n)
    | Option.none => .error (.valueError ("Cannot convert " ++ s ++ " to int"))
  | other => .error (.valueError ("Cannot convert " ++ pyStrH h other ++ " to int"))

/-- Python `a > b` as used by the `max` built-in: numeric values
compare numerically, strings lexicographically, and any other pairing
raises `TypeError` (Python would also compare lists elementwise; no
claim touches that case and it is mapped to the same `TypeError`
shape). -/
def pyGtV (a b : Value) : Except Err Bool :=
  if isNum a && isNum b then .ok (decide (toRat b < toRat a))
  else
    match a, b with
    | .str x, .str y => .ok (decide (y < x))
    | _, _ =>
      .error (.typeError ("'>' not supported between instances of '" ++
        pyTypeName a ++ "' and '" ++ pyTypeName b ++ "'"))

/-- Python `a < b` as used by the `min` built-in. -/
def pyLtV (a b : Value) : Except Err Bool :=
  if isNum a && isNum b then .ok (decide (toRat a < toRat b))
  else
    match a, b with
    | .str x, .str y => .ok (decide (x < y))
    | _, _ =>
      .error (.typeError ("'<' not supported between instances of '" ++
        pyTypeName a ++ "' and '" ++ pyTypeName b ++ "'"))

/-- Python `max(args)` over the evaluated argument list (first maximal
element wins ties, as Python's strict `>` scan). -/
def pyMax : List Value → Except Err Value
  | [] => .error (.valueError "max() arg is an empty sequence")
  | x :: rest =>
    rest.foldlM (fun best y => do
      let b ← pyGtV y best
      pure (if b then y else best)) x

/-- Python `min(args)` over the evaluated argument list. -/
def pyMin : List Value → Except Err Value
  | [] => .error (.valueError "min() arg is an empty sequence")
  | x :: rest =>
    rest.foldlM (fun best y => do
      let b ← pyLtV y best
      pure (if b then y else best)) x

/-- The `abs` built-in's result on a numeric value. -/
def pyAbs : Value → Value
  | .int n => .int (if n < 0 then -n else n)
  | .float q => .float |q|
  | .bool b => .int (if b then 1 else 0)
  | v => v

mutual

/-- Embedding of `HPLEvaluator.evaluate_expression` (`evaluator.py`,
lines 182-303), fuel-indexed.  Note for the claims: the `BinaryOp`
branch evaluates both operands before dispatching on the operator
(there is no short-circuiting), and the `MethodCall` branch evaluates
the receiver, then all arguments left-to-right, and only then resolves
the method.  The `HPLModule` receiver branch is omitted together with
module values (the module system is modelled separately at the
`load_module` level). -/
def evaluate_expression (E : Env) : Nat → Expr → St → Option (St × Except Err Value)
  | 0, _, _ => none
  | _+1, .intLit n, s => some (s, .ok (.int n))
  | _+1, .floatLit q, s => some (s, .ok (.float q))
  | _+1, .strLit v, s => some (s, .ok (.str v))
  | _+1, .boolLit b, s => some (s, .ok (.bool b))
  | _+1, .var name, s =>
    (match lookup_variable name s with
     | .ok v => some (s, .ok v)
     | .error er => some (s, .error er))
  | f+1, .binop l op r, s =>
    (match evaluate_expression E f l s with
     | Option.none => none
     | some (s₁, .error er) => some (s₁, .error er)
     | some (s₁, .ok lv) =>
       match evaluate_expression E f r s₁ with
       | Option.none => none
       | some (s₂, .error er) => some (s₂, .error er)
       | some (s₂, .ok rv) => some (s₂, eval_binary_op s₂.heap lv op rv))
  | f+1, .unop op operand, s =>
    (match evaluate_expression E f operand s with
     | Option.none => none
     | some (s₁, .error er) => some (s₁, .error er)
     | some (s₁, .ok v) =>
       if op = "!" then
         match v with
         | .bool b => some (s₁, .ok (.bool !b))
         | _ =>
           some (s₁, .error (.typeError ("Logical NOT requires boolean operand, got " ++
             pyTypeName v)))
       else some (s₁, .error (.valueError ("Unknown unary operator " ++ op))))
  | f+1, .funcCall func_name args, s =>
    if func_name = "echo" then
      match args.get? 0 with
      | Option.none => some (s, .error (.hostIndexError "list index out of range"))
      | some a0 =>
        match evaluate_expression E f a0 s with
        | Option.none => none
        | some (s₁, .error er) => some (s₁, .error er)
        | some (s₁, .ok v) =>
          some ({ s₁ with output := s₁.output ++ [pyStrH s₁.heap v] }, .ok .none)
    else if func_name = "len" then
      match args.get? 0 with
      | Option.none => some (s, .error (.hostIndexError "list index out of range"))
      | some a0 =>
        match evaluate_expression E f a0 s with
        | Option.none => none
        | some (s₁, .error er) => some (s₁, .error er)
        | some (s₁, .ok v) =>
          match v with
          | .arr addr =>
            (match s₁.heap.get? addr with
             | some l => some (s₁, .ok (.int l.length))
             | Option.none => none)
          | .str str0 => some (s₁, .ok (.int str0.length))
          | _ =>
            some (s₁, .error (.typeError ("len() requires list or string, got " ++
              pyTypeName v)))
    else if func_name = "int" then
      match args.get? 0 with
      | Option.none => some (s, .error (.hostIndexError "list index out of range"))
      | some a0 =>
        match evaluate_expression E f a0 s with
        | Option.none => none
        | some (s₁, .error er) => some (s₁, .error er)
        | some (s₁, .ok v) => some (s₁, pyToInt s₁.heap v)
    else if func_name = "str" then
      match args.get? 0 with
      | Option.none => some (s, .error (.hostIndexError "list index out of range"))
      | some a0 =>
        match evaluate_expression E f a0 s with
        | Option.none => none
        | some (s₁, .error er) => some (s₁, .error er)
        | some (s₁, .ok v) => some (s₁, .ok (.str (pyStrH s₁.heap v)))
    else if func_name = "type" then
      match args.get? 0 with
      | Option.none => some (s, .error (.hostIndexError "list index out of range"))
      | some a0 =>
        match evaluate_expression E f a0 s with
        | Option.none => none
        | some (s₁, .error er) => some (s₁, .error er)
        | some (s₁, .ok v) => some (s₁, .ok (.str (pyTypeOf v)))
    else if func_name = "abs" then
      match args.get? 0 with
      | Option.none => some (s, .error (.hostIndexError "list index out of range"))
      | some a0 =>
        match evaluate_expression E f a0 s with
        | Option.none => none
        | some (s₁, .error er) => some (s₁, .error er)
        | some (s₁, .ok v) =>
          if !isNum v then
            some (s₁, .error (.typeError ("abs() requires number, got " ++ pyTypeName v)))
          else some (s₁, .ok (pyAbs v))
    else if func_name = "max" then
      if args.length < 1 then
        some (s, .error (.valueError "max() requires at least one argument"))
      else
        match eval_args E f args s with
        | Option.none => none
        | some (s₁, .error er) => some (s₁, .error er)
        | some (s₁, .ok vs) => some (s₁, pyMax vs)
    else if func_name = "min" then
      if args.length < 1 then
        some (s, .error (.valueError "min() requires at least one argument"))
      else
        match eval_args E f args s with
        | Option.none => none
        | some (s₁, .error er) => some (s₁, .error er)
        | some (s₁, .ok vs) => some (s₁, pyMin vs)
    else some (s, .error (.valueError ("Unknown function " ++ func_name)))
  | f+1, .methodCall obj_name method_name args, s =>
    (match evaluate_expression E f obj_name s with
     | Option.none => none
     | some (s₁, .error er) => some (s₁, .error er)
     | some (s₁, .ok ov) =>
       match ov with
       | .obj objName cls =>
         (match eval_args E f args s₁ with
          | Option.none => none
          | some (s₂, .error er) => some (s₂, .error er)
          | some (s₂, .ok argVals) =>
            match lookupMethod E.classes cls method_name with
            | .error er => some (s₂, .error er)
            | .ok meth =>
              let method_scope :=
                insertA (bindParams meth.params argVals) "this" (.obj objName cls)
              match execute_block E f meth.body { s₂ with local_scope := method_scope } with
              | Option.none => none
              | some (s₃, .norm) => some ({ s₃ with local_scope := s₂.local_scope }, .ok .none)
              | some (s₃, .ret v) => some ({ s₃ with local_scope := s₂.local_scope }, .ok v)
              | some (s₃, .exn er) =>
                some ({ s₃ with local_scope := s₂.local_scope }, .error er))
       | _ =>
         some (s₁, .error (.valueError ("Cannot call method on " ++ pyStrH s₁.heap ov))))
  | _+1, .postIncr var_name, s =>
    (match lookup_variable var_name s with
     | .error er => some (s, .error er)
     | .ok v =>
       if !isNum v then
         some (s, .error (.typeError ("Cannot increment non-numeric value: " ++
           pyTypeName v)))
       else some (update_variable var_name (numArith (· + ·) (· + ·) v (.int 1)) s, .ok v))
  | f+1, .arrayLit elements, s =>
    (match eval_args E f elements s with
     | Option.none => none
     | some (s₁, .error er) => some (s₁, .error er)
     | some (s₁, .ok vs) =>
       some ({ s₁ with heap := s₁.heap ++ [vs] }, .ok (.arr s₁.heap.length)))
  | f+1, .arrayAccess array index, s =>
    (match evaluate_expression E f array s with
     | Option.none => none
     | some (s₁, .error er) => some (s₁, .error er)
     | some (s₁, .ok av) =>
       match evaluate_expression E f index s₁ with
       | Option.none => none
       | some (s₂, .error er) => some (s₂, .error er)
       | some (s₂, .ok iv) =>
         match av with
         | .arr addr =>
           if !isIntLike iv then
             some (s₂, .error (.typeError ("Array index must be integer, got " ++
               pyTypeName iv)))
           else
             (match s₂.heap.get? addr with
              | Option.none => none
              | some l =>
                let i := toIntVal iv
                if i < 0 ∨ (l.length : Int) ≤ i then
                  some (s₂, .error (.indexError i l.length))
                else
                  match l.get? i.toNat with
                  | some x => some (s₂, .ok x)
                  | Option.none => none)
         | .str str0 =>
           if !isIntLike iv then
             some (s₂, .error (.typeError ("Array index must be integer, got " ++
               pyTypeName iv)))
           else
             let i := toIntVal iv
             if i < 0 ∨ (str0.length : Int) ≤ i then
               some (s₂, .error (.indexError i str0.length))
             else
               (match str0.data.get? i.toNat with
                | some c => some (s₂, .ok (.str (String.mk [c])))
                | Option.none => none)
         | _ =>
           some (s₂, .error (.typeError ("Cannot index non-array and non-string value: " ++
             pyTypeName av))))

/-- Left-to-right evaluation of an argument (or array-literal element)
list, threading the state; the first exception aborts the remaining
arguments, as in Python. -/
def eval_args (E : Env) : Nat → List Expr → St → Option (St × Except Err (List Value))
  | 0, _, _ => none
  | _+1, [], s => some (s, .ok [])
  | f+1, a :: rest, s =>
    match evaluate_expression E f a s with
    | Option.none => none
    | some (s₁, .error er) => some (s₁, .error er)
    | some (s₁, .ok v) =>
      match eval_args E f rest s₁ with
      | Option.none => none
      | some (s₂, .error er) => some (s₂, .error er)
      | some (s₂, .ok vs) => some (s₂, .ok (v :: vs))

/-- Embedding of `HPLEvaluator.execute_statement` (`evaluator.py`,
lines 86-180), fuel-indexed.  Notes for the claims: the
`AssignmentStatement` branch writes the local scope unconditionally
(`local_scope[stmt.var_name] = value`); the `ArrayAssignmentStatement`
branch bounds-checks the index before evaluating the assigned value;
`try/catch` catches every exception — the break/continue control
exceptions included — binding `str(e)` to the catch variable in the
local scope at the point of the raise. -/
def execute_statement (E : Env) : Nat → Stmt → St → Option (St × Res)
  | 0, _, _ => none
  | f+1, .assign var_name expr, s =>
    (match evaluate_expression E f expr s with
     | Option.none => none
     | some (s₁, .error er) => some (s₁, .exn er)
     | some (s₁, .ok v) =>
       some ({ s₁ with local_scope := insertA s₁.local_scope var_name v }, .norm))
  | f+1, .arrayAssign array_name index_expr value_expr, s =>
    (match lookup_variable array_name s with
     | .error er => some (s, .exn er)
     | .ok av =>
       match av with
       | .arr addr =>
         (match evaluate_expression E f index_expr s with
          | Option.none => none
          | some (s₁, .error er) => some (s₁, .exn er)
          | some (s₁, .ok iv) =>
            if !isIntLike iv then
              some (s₁, .exn (.typeError ("Array index must be integer, got " ++
                pyTypeName iv)))
            else
              match s₁.heap.get? addr with
              | Option.none => none
              | some l =>
                let i := toIntVal iv
                if i < 0 ∨ (l.length : Int) ≤ i then
                  some (s₁, .exn (.indexError i l.length))
                else
                  match evaluate_expression E f value_expr s₁ with
                  | Option.none => none
                  | some (s₂, .error er) => some (s₂, .exn er)
                  | some (s₂, .ok v) =>
                    match s₂.heap.get? addr with
                    | Option.none => none
                    | some l₂ =>
                      if i.toNat < l₂.length then
                        some ({ s₂ with heap := s₂.heap.set addr (l₂.set i.toNat v) },
                          .norm)
                      else
                        some (s₂, .exn (.hostIndexError "list assignment index out of range")))
       | _ =>
         some (s, .exn (.typeError ("Cannot assign to non-array value: " ++
           pyTypeName av))))
  | _+1, .ret Option.none, s => some (s, .ret .none)
  | f+1, .ret (some expr), s =>
    (match evaluate_expression E f expr s with
     | Option.none => none
     | some (s₁, .error er) => some (s₁, .exn er)
     | some (s₁, .ok v) => some (s₁, .ret v))
  | f+1, .ifStmt condition then_block else_block, s =>
    (match evaluate_expression E f condition s with
     | Option.none => none
     | some (s₁, .error er) => some (s₁, .exn er)
     | some (s₁, .ok c) =>
       if truthy s₁.heap c then execute_block E f then_block s₁
       else
         match else_block with
         | some b => execute_block E f b s₁
         | Option.none => some (s₁, .norm))
  | f+1, .forStmt init condition increment_expr body, s =>
    (match execute_statement E f init s with
     | Option.none => none
     | some (s₁, .exn er) => some (s₁, .exn er)
     | some (s₁, _) => for_loop E f condition increment_expr body s₁)
  | f+1, .whileStmt condition body, s => while_loop E f condition body s
  | _+1, .breakStmt, s => some (s, .exn .breakExc)
  | _+1, .continueStmt, s => some (s, .exn .continueExc)
  | f+1, .tryCatch try_block catch_var catch_block, s =>
    (match execute_block E f try_block s with
     | Option.none => none
     | some (s₁, .norm) => some (s₁, .norm)
     | some (s₁, .ret v) => some (s₁, .ret v)
     | some (s₁, .exn er) =>
       execute_block E f catch_block
         { s₁ with local_scope := insertA s₁.local_scope catch_var (.str (errStr er)) })
  | f+1, .echo expr, s =>
    (match evaluate_expression E f expr s with
     | Option.none => none
     | some (s₁, .error er) => some (s₁, .exn er)
     | some (s₁, .ok v) =>
       some ({ s₁ with output := s₁.output ++ [pyStrH s₁.heap v] }, .norm))
  | _+1, .increment var_name, s =>
    (match lookup_variable var_name s with
     | .error er => some (s, .exn er)
     | .ok v =>
       if !isNum v then
         some (s, .exn (.typeError ("Cannot increment non-numeric value: " ++
           pyTypeName v)))
       else some (update_variable var_name (numArith (· + ·) (· + ·) v (.int 1)) s, .norm))
  | f+1, .block statements, s => execute_block E f statements s
  | f+1, .exprStmt expr, s =>
    (match evaluate_expression E f expr s with
     | Option.none => none
     | some (s₁, .error er) => some (s₁, .exn er)
     | some (s₁, .ok _) => some (s₁, .norm))

/-- Embedding of `HPLEvaluator.execute_block` (`evaluator.py`,
lines 73-84): run statements in order; a `ReturnValue` or a raised
exception aborts the rest of the block and travels upward. -/
def execute_block (E : Env) : Nat → List Stmt → St → Option (St × Res)
  | 0, _, _ => none
  | _+1, [], s => some (s, .norm)
  | f+1, st :: rest, s =>
    match execute_statement E f st s with
    | Option.none => none
    | some (s₁, .norm) => execute_block E f rest s₁
    | some (s₁, r) => some (s₁, r)

/-- The `while` loop of the `WhileStatement` branch (`evaluator.py`,
lines 135-145): a `BreakException` from the body ends the loop
normally, a `ContinueException` re-tests the condition, a
`ReturnValue` or any other exception propagates. -/
def while_loop (E : Env) : Nat → Expr → List Stmt → St → Option (St × Res)
  | 0, _, _, _ => none
  | f+1, condition, body, s =>
    match evaluate_expression E f condition s with
    | Option.none => none
    | some (s₁, .error er) => some (s₁, .exn er)
    | some (s₁, .ok c) =>
      if !truthy s₁.heap c then some (s₁, .norm)
      else
        match execute_block E f body s₁ with
        | Option.none => none
        | some (s₂, .ret v) => some (s₂, .ret v)
        | some (s₂, .exn .breakExc) => some (s₂, .norm)
        | some (s₂, .exn .continueExc) => while_loop E f condition body s₂
        | some (s₂, .exn er) => some (s₂, .exn er)
        | some (s₂, .norm) => while_loop E f condition body s₂

/-- The `for` loop of the `ForStatement` branch (`evaluator.py`,
lines 121-134), after the init statement has run: like the `while`
loop, but the increment expression is evaluated (value discarded)
after a normal body run and after a `ContinueException`, and is
skipped on `break`, `return` and other exceptions. -/
def for_loop (E : Env) : Nat → Expr → Expr → List Stmt → St → Option (St × Res)
  | 0, _, _, _, _ => none
  | f+1, condition, increment_expr, body, s =>
    match evaluate_expression E f condition s with
    | Option.none => none
    | some (s₁, .error er) => some (s₁, .exn er)
    | some (s₁, .ok c) =>
      if !truthy s₁.heap c then some (s₁, .norm)
      else
        match execute_block E f body s₁ with
        | Option.none => none
        | some (s₂, .ret v) => some (s₂, .ret v)
        | some (s₂, .exn .breakExc) => some (s₂, .norm)
        | some (s₂, .exn .continueExc) =>
          (match evaluate_expression E f increment_expr s₂ with
           | Option.none => none
           | some (s₃, .error er) => some (s₃, .exn er)
           | some (s₃, .ok _) => for_loop E f condition increment_expr body s₃)
        | some (s₂, .exn er) => some (s₂, .exn er)
        | some (s₂, .norm) =>
          (match evaluate_expression E f increment_expr s₂ with
           | Option.none => none
           | some (s₃, .error er) => some (s₃, .exn er)
           | some (s₃, .ok _) => for_loop E f condition increment_expr body s₃)

end

/-- The opening-brace character, kept out of literals. -/
def openBrace : Char := Char.ofNat 123

/-- The closing-brace character. -/
def closeBrace : Char := Char.ofNat 125

/-- Python regex `\s` on a single line (ASCII whitespace). -/
def isWSChar (c : Char) : Bool :=
  c = ' ' || c = '\t' || c = '\n' || c = '\r' || c = Char.ofNat 11 || c = Char.ofNat 12

/-- Python regex `\w`, restricted to ASCII as every source the loader
sees uses (letters, digits, underscore). -/
def isWordChar (c : Char) : Bool := c.isAlphanum || c = '_'

/-- Whether the characters following the opening parenthesis match the
regex tail `.*\)\s*=>.*\{`: some closing parenthesis is followed by
optional whitespace, the arrow `=>`, and a later opening brace. -/
def arrowTail : List Char → Bool
  | [] => false
  | c :: rest =>
    (c = ')' && (match rest.dropWhile isWSChar with
                 | '=' :: '>' :: r2 => r2.contains openBrace
                 | _ => false))
      || arrowTail rest

/-- The function-definition line test of `preprocess_functions`
(`parser.py`, line 82): `re.match` of
`^(\s*)(\w+):\s*\(.*\)\s*=>.*\{` against one line, returning the
indent captured by the first group on success. -/
def matchFuncDef (cs : List Char) : Option (List Char) :=
  let indent := cs.takeWhile isWSChar
  let rest := cs.dropWhile isWSChar
  let key := rest.takeWhile isWordChar
  let rest2 := rest.dropWhile isWordChar
  if key.isEmpty then none
  else
    match rest2 with
    | ':' :: rest3 =>
      (match rest3.dropWhile isWSChar with
       | '(' :: rest5 => if arrowTail rest5 then some indent else none
       | _ => none)
    | _ => none

/-- Python `line.count(c)`. -/
def countChar (cs : List Char) (c : Char) : Nat := (cs.filter (· = c)).length

/-- Net brace count of one line:
`line.count('{') - line.count('}')`. -/
def braceDelta (line : String) : Int :=
  (countChar line.data openBrace : Int) - (countChar line.data closeBrace : Int)

/-- The body-collection loop of `preprocess_functions` (`parser.py`,
lines 94-98): `while brace_count > 0 and j < len(lines)` append the
next line and add its brace delta.  Returns the collected body lines
and the unconsumed remainder; reaching the end of input with a
positive count simply ends the loop. -/
def collectBody : Int → List String → (List String × List String)
  | _, [] => ([], [])
  | bc, l :: ls =>
    if 0 < bc then
      let p := collectBody (bc + braceDelta l) ls
      (l :: p.1, p.2)
    else ([], l :: ls)

/-- Python `str.split` on a newline: `"".split` gives one empty
piece, and every newline separates two pieces. -/
def splitNL : List Char → List (List Char)
  | [] => [[]]
  | c :: rest =>
    if c = '\n' then [] :: splitNL rest
    else
      match splitNL rest with
      | l :: ls => (c :: l) :: ls
      | [] => [[c]]

/-- Python `str.rstrip()`. -/
def rstripWS (s : String) : String :=
  String.mk ((s.data.reverse.dropWhile isWSChar).reverse)

/-- Python `str.strip()` (strips whitespace, newlines included). -/
def stripWS (s : String) : String :=
  String.mk (((s.data.dropWhile isWSChar).reverse.dropWhile isWSChar).reverse)

/-- Everything before the first colon (`full_func[:colon_pos]`); a
matched function line always contains one. -/
def beforeColon (cs : List Char) : List Char := cs.takeWhile (· ≠ ':')

/-- Everything after the first colon (`full_func[colon_pos+1:]`). -/
def afterColon (cs : List Char) : List Char :=
  match cs.dropWhile (· ≠ ':') with
  | _ :: t => t
  | [] => []

/-- The line-scanning loop of `preprocess_functions` (`parser.py`,
lines 77-118), fuel-indexed by the number of remaining lines (each
iteration consumes at least one line, so the initial line count is
always enough fuel).  A matched function-definition line and its
collected body are rewritten as a YAML literal block
`key_part: |` followed by the body re-indented two spaces past the
captured indent; other lines pass through. -/
def ppLoop : Nat → List String → List String
  | 0, _ => []
  | _+1, [] => []
  | f+1, line :: rest =>
    match matchFuncDef line.data with
    | Option.none => line :: ppLoop f rest
    | some indent =>
      let bc := braceDelta line
      let collected := collectBody bc rest
      let func_lines := line :: collected.1
      let full_func := String.intercalate "\n" func_lines
      let key_part := rstripWS (String.mk (beforeColon full_func.data))
      let value_part := stripWS (String.mk (afterColon full_func.data))
      ((key_part ++ ": |") ::
        (splitNL value_part.data).map (fun fl => String.mk indent ++ "  " ++ String.mk fl))
        ++ ppLoop f collected.2

/-- Embedding of `HPLParser.preprocess_functions` (`parser.py`,
lines 68-120): split the source text into lines, rewrite every
function definition into a literal block, and re-join.  The function
is total: no input raises. -/
def preprocess_functions (content : String) : String :=
  let lines := (splitNL content.data).map String.mk
  String.intercalate "\n" (ppLoop lines.length lines)

/-- Sum of the brace deltas of a list of lines (the running
brace-nesting count after consuming them). -/
def sumDeltas (ls : List String) : Int := (ls.map braceDelta).sum

/- Concrete fixtures used by the per-claim theorems below. -/

/-- An empty class table. -/
def envEmpty : Env := ⟨[]⟩

/-- A method returning 42, defined on the root class of the test
inheritance chain. -/
def fnRet42 : HPLFunction := ⟨[], [.ret (some (.intLit 42))]⟩

/-- Root class of the test chain: defines `m`. -/
def clsA : HPLClass := ⟨"A", [("m", fnRet42)], Option.none⟩

/-- Middle class: inherits from `A`, defines nothing. -/
def clsB : HPLClass := ⟨"B", [], some "A"⟩

/-- Leaf class: inherits from `B`, defines nothing, so `m` lives only
in its grandparent. -/
def clsC : HPLClass := ⟨"C", [], some "B"⟩

/-- Class table holding the three-level chain. -/
def envChain : Env := ⟨[("A", clsA), ("B", clsB), ("C", clsC)]⟩

/-- A standard-library-style module fixture. -/
def mathMod : HPLModule := ⟨"math", [("sqrt", 0)], [("PI", 1)]⟩

/-- A resolver that knows only the `math` standard module. -/
def mathResolver : Resolver :=
  ⟨fun nm => if nm = "math" then some mathMod else Option.none,
   fun _ => Option.none, fun _ => Option.none, fun _ => Option.none⟩

section Lemmas

theorem lookupA_insertA_self {α : Type} (sc : List (String × α)) (k : String) (v : α) :
    lookupA (insertA sc k v) k = some v := by
  induction sc with
  | nil => simp [insertA, lookupA]
  | cons hd tl ih =>
    by_cases h : hd.1 = k
    · simp [insertA, h, lookupA]
    · simpa [insertA, h, lookupA] using ih

theorem lookupA_insertA_ne {α : Type} (sc : List (String × α)) {k k' : String} (v : α)
    (h : k' ≠ k) : lookupA (insertA sc k v) k' = lookupA sc k' := by
  induction sc with
  | nil => simp [insertA, lookupA, if_neg (Ne.symm h)]
  | cons hd tl ih =>
    by_cases hk : hd.1 = k
    · simp [insertA, hk, lookupA, Ne.symm h]
    · by_cases hk' : hd.1 = k'
      · simp [insertA, hk, lookupA, hk', h]
      · simpa [insertA, hk, lookupA, hk'] using ih

theorem insertA_of_lookupA_none {α : Type} (sc : List (String × α)) (k : String) (v : α)
    (h : lookupA sc k = none) : insertA sc k v = sc ++ [(k, v)] := by
  induction sc with
  | nil => simp [insertA]
  | cons hd tl ih =>
    by_cases hk : hd.1 = k
    · simp [lookupA, hk] at h
    · simp [lookupA, hk] at h
      simp [insertA, hk, ih h]

theorem lookupA_append {α : Type} (a b : List (String × α)) (k : String) :
    lookupA (a ++ b) k =
      (match lookupA a k with
       | some v => some v
       | Option.none => lookupA b k) := by
  induction a with
  | nil => simp [lookupA]
  | cons hd tl ih =>
    by_cases hk : hd.1 = k
    · simp [lookupA, hk]
    · simpa [lookupA, hk] using ih

theorem foldl_insertA_fresh (l : List (String × Value)) :
    ∀ (sc : Scope), (l.map Prod.fst).Nodup →
      (∀ k, k ∈ l.map Prod.fst → lookupA sc k = none) →
      l.foldl (fun sc pv => insertA sc pv.1 pv.2) sc = sc ++ l := by
  induction l with
  | nil => intro sc _ _; simp
  | cons hd tl ih =>
    intro sc hnd hfresh
    simp only [List.map_cons, List.nodup_cons] at hnd
    have hhd : lookupA sc hd.1 = none := hfresh hd.1 (by simp)
    have hstep : insertA sc hd.1 hd.2 = sc ++ [hd] :=
      insertA_of_lookupA_none sc hd.1 hd.2 hhd
    have hfresh' : ∀ k, k ∈ tl.map Prod.fst → lookupA (sc ++ [hd]) k = none := by
      intro k hk
      have hne : k ≠ hd.1 := fun he => hnd.1 (he ▸ hk)
      rw [lookupA_append, hfresh k (by simp [hk])]
      simp [lookupA, Ne.symm hne]
    calc List.foldl (fun sc pv => insertA sc pv.1 pv.2) sc (hd :: tl)
        = List.foldl (fun sc pv => insertA sc pv.1 pv.2) (sc ++ [hd]) tl := by
          simp [hstep]
      _ = (sc ++ [hd]) ++ tl := ih (sc ++ [hd]) hnd.2 hfresh'
      _ = sc ++ (hd :: tl) := by simp

theorem map_fst_zip_take (ps : List String) :
    ∀ (vs : List Value), (ps.zip vs).map Prod.fst = ps.take vs.length := by
  induction ps with
  | nil => intro vs; simp
  | cons p ps ih =>
    intro vs
    cases vs with
    | nil => simp
    | cons v vs => simp [ih vs]

theorem bindParams_eq_zip (params : List String) (args : List Value)
    (h : params.Nodup) : bindParams params args = params.zip args := by
  unfold bindParams
  have hkeys : ((params.zip args).map Prod.fst).Nodup := by
    rw [map_fst_zip_take]
    exact h.sublist (List.take_sublist _ _)
  have := foldl_insertA_fresh (params.zip args) [] hkeys (fun k _ => rfl)
  simpa using this

theorem zip_take_self (ps : List String) :
    ∀ (vs : List Value), ps.zip (vs.take ps.length) = ps.zip vs := by
  induction ps with
  | nil => intro vs; simp
  | cons p ps ih =>
    intro vs
    cases vs with
    | nil => simp
    | cons v vs => simp [ih vs]

theorem lookupA_zip_get (params : List String) :
    ∀ (args : List Value), params.Nodup →
      ∀ (i : Nat) (hi : i < params.length), i < args.length →
        lookupA (params.zip args) (params.get ⟨i, hi⟩) = args.get? i := by
  induction params with
  | nil => intro args _ i hi _; exact absurd hi (by simp)
  | cons p ps ih =>
    intro args hnd i hi ha
    cases args with
    | nil => exact absurd ha (by simp)
    | cons a as_ =>
      rw [List.nodup_cons] at hnd
      cases i with
      | zero => simp [lookupA]
      | succ i' =>
        have hne : p ≠ ps.get ⟨i', by simpa using hi⟩ := by
          intro he
          exact hnd.1 (he ▸ List.get_mem ps _ _)
        simp only [List.zip_cons_cons, List.get, lookupA]
        rw [if_neg hne]
        exact ih as_ hnd.2 i' _ (by simpa using ha)

theorem lookupA_zip_get_none (params : List String) :
    ∀ (args : List Value), params.Nodup →
      ∀ (j : Nat) (hj : j < params.length), args.length ≤ j →
        lookupA (params.zip args) (params.get ⟨j, hj⟩) = none := by
  induction params with
  | nil => intro args _ j hj _; exact absurd hj (by simp)
  | cons p ps ih =>
    intro args hnd j hj ha
    cases args with
    | nil => simp [lookupA]
    | cons a as_ =>
      rw [List.nodup_cons] at hnd
      cases j with
      | zero => simp at ha
      | succ j' =>
        have hne : p ≠ ps.get ⟨j', by simpa using hj⟩ := by
          intro he
          exact hnd.1 (he ▸ List.get_mem ps _ _)
        simp only [List.zip_cons_cons, List.get, lookupA]
        rw [if_neg hne]
        exact ih as_ hnd.2 j' _ (by simpa using ha)

end Lemmas

/-- C1 counterexample: with `x` bound only in the global table, the
claim says the assignment `x = 1` mutates the global binding; the
`AssignmentStatement` branch instead writes `local_scope`
unconditionally, so the run ends with a fresh local binding `x = 1`
while the global table still carries `x = 0`. -/
theorem assign_shadows_global_counterexample :
    execute_statement envEmpty 2 (.assign "x" (.intLit 1)) ⟨[], [("x", .int 0)], [], []⟩
      = some (⟨[("x", .int 1)], [("x", .int 0)], [], []⟩, .norm) := rfl

/-- C1 (amended): an executed assignment `x = e` always binds the
evaluated value in the current local frame — updating the local
binding if present and creating one otherwise, even when `x` is bound
in the global table (which the binding step never writes); the
local-then-global-then-create rule of `_update_variable` is used by
the increment forms, not by assignment. -/
theorem assign_writes_local_only (E : Env) (f : Nat) (x : String) (e : Expr) (s s' : St)
    (v : Value) (h : evaluate_expression E f e s = some (s', .ok v)) :
    execute_statement E (f+1) (.assign x e) s
        = some ({ s' with local_scope := insertA s'.local_scope x v }, .norm)
      ∧ ({ s' with local_scope := insertA s'.local_scope x v } : St).global_scope
          = s'.global_scope
      ∧ lookupA (insertA s'.local_scope x v) x = some v
      ∧ ∀ y, y ≠ x → lookupA (insertA s'.local_scope x v) y = lookupA s'.local_scope y := by
  refine ⟨?_, rfl, lookupA_insertA_self _ _ _, fun y hy => lookupA_insertA_ne _ _ hy⟩
  simp [execute_statement, h]

/-- C1 witness: the amended theorem applied to the assignment `x = 5`
in a state whose global table binds `x`. -/
theorem assign_writes_local_only_witness :
    execute_statement envEmpty 2 (.assign "x" (.intLit 5)) ⟨[], [("x", .int 0)], [], []⟩
      = some (⟨[("x", .int 5)], [("x", .int 0)], [], []⟩, .norm) :=
  (assign_writes_local_only envEmpty 1 "x" (.intLit 5) ⟨[], [("x", .int 0)], [], []⟩
    ⟨[], [("x", .int 0)], [], []⟩ (.int 5) rfl).1

/-- C2: for an array of length `n` and an integer index `i`, the index
read `a[i]` succeeds exactly when `0 ≤ i < n` and otherwise returns
`IndexError i n` with the state untouched; the element assignment
`a[i] = e` bounds-checks before evaluating `e`, so an out-of-bounds
index raises `IndexError i n` with the state (array included)
untouched, while an in-bounds assignment stores the value; the
`IndexError` message contains the decimal rendering of `i`. -/
theorem array_index_bounds (E : Env) (g : Nat) (s : St) (name : String) (addr : Nat)
    (l : List Value) (i : Int)
    (ha : lookup_variable name s = .ok (.arr addr))
    (hh : s.heap.get? addr = some l) :
    (0 ≤ i → i < (l.length : Int) →
       ∃ x, l.get? i.toNat = some x ∧
         evaluate_expression E (g+2) (.arrayAccess (.var name) (.intLit i)) s
           = some (s, .ok x))
  ∧ (¬ (0 ≤ i ∧ i < (l.length : Int)) →
       evaluate_expression E (g+2) (.arrayAccess (.var name) (.intLit i)) s
         = some (s, .error (.indexError i l.length)))
  ∧ (∀ (e : Expr) (v : Value),
       evaluate_expression E (g+1) e s = some (s, .ok v) →
       0 ≤ i → i < (l.length : Int) →
       execute_statement E (g+2) (.arrayAssign name (.intLit i) e) s
         = some ({ s with heap := s.heap.set addr (l.set i.toNat v) }, .norm))
  ∧ (¬ (0 ≤ i ∧ i < (l.length : Int)) → ∀ e : Expr,
       execute_statement E (g+2) (.arrayAssign name (.intLit i) e) s
         = some (s, .exn (.indexError i l.length)))
  ∧ (∃ pre suf, errStr (.indexError i l.length) = pre ++ toString i ++ suf) := by
  have hh' : s.heap[addr]? = some l := by
    rw [← List.get?_eq_getElem?]
    exact hh
  refine ⟨?_, ?_, ?_, ?_, ?_⟩
  · intro hpos hlt
    have hnat : i.toNat < l.length := by omega
    have hcond : ¬ (i < 0 ∨ (l.length : Int) ≤ i) := by omega
    have hx : l[i.toNat]? = some (l.get ⟨i.toNat, hnat⟩) := by
      rw [← List.get?_eq_getElem?]
      exact List.get?_eq_get hnat
    refine ⟨l.get ⟨i.toNat, hnat⟩, List.get?_eq_get hnat, ?_⟩
    simp [evaluate_expression, ha, hh', hcond, toIntVal, isIntLike, hx]
  · intro hout
    have hcond : i < 0 ∨ (l.length : Int) ≤ i := by omega
    simp [evaluate_expression, ha, hh', hcond, toIntVal, isIntLike]
  · intro e v he hpos hlt
    have hnat : i.toNat < l.length := by omega
    have hcond : ¬ (i < 0 ∨ (l.length : Int) ≤ i) := by omega
    simp [execute_statement, evaluate_expression, ha, hh', hcond, toIntVal, isIntLike,
      he, hnat]
  · intro hout e
    have hcond : i < 0 ∨ (l.length : Int) ≤ i := by omega
    simp [execute_statement, evaluate_expression, ha, hh', hcond, toIntVal, isIntLike]
  · refine ⟨"Array index ", " out of bounds (length: " ++ toString l.length ++ ")", ?_⟩
    simp [errStr, String.append_assoc]

/-- C2 witness: the bounds theorem applied to a length-2 array, once
with the out-of-bounds index 5 (error, array untouched) and once with
the in-bounds assignment `a[1] = "z"`. -/
theorem array_index_bounds_witness :
    evaluate_expression envEmpty 2 (.arrayAccess (.var "a") (.intLit 5))
        ⟨[("a", .arr 0)], [], [[.int 10, .int 20]], []⟩
      = some (⟨[("a", .arr 0)], [], [[.int 10, .int 20]], []⟩, .error (.indexError 5 2))
    ∧ execute_statement envEmpty 2 (.arrayAssign "a" (.intLit 1) (.strLit "z"))
        ⟨[("a", .arr 0)], [], [[.int 10, .int 20]], []⟩
      = some (⟨[("a", .arr 0)], [], [[.int 10, .str "z"]], []⟩, .norm) :=
  ⟨(array_index_bounds envEmpty 0 ⟨[("a", .arr 0)], [], [[.int 10, .int 20]], []⟩
      "a" 0 [.int 10, .int 20] 5 rfl rfl).2.1 (by decide),
   (array_index_bounds envEmpty 0 ⟨[("a", .arr 0)], [], [[.int 10, .int 20]], []⟩
      "a" 0 [.int 10, .int 20] 1 rfl rfl).2.2.1 (.strLit "z") (.str "z") rfl
      (by decide) (by decide)⟩

/-- C3 counterexample: the claim says `false && r` never evaluates
`r`; in `evaluate_expression` both operands of a `BinaryOp` are
evaluated before `_eval_binary_op` runs, so `false && (1 / 0)` raises
the division error of the right operand instead of returning false. -/
theorem binop_no_short_circuit_counterexample :
    evaluate_expression envEmpty 3
        (.binop (.boolLit false) "&&" (.binop (.intLit 1) "/" (.intLit 0))) ⟨[], [], [], []⟩
      = some (⟨[], [], [], []⟩, .error (.zeroDiv "Division by zero")) := rfl

/-- C3 (amended): `&&` and `||` do not short-circuit — the right
operand is always evaluated, left to right, before the operator is
applied, so an error raised by the right operand propagates even when
the left operand already decides the result (left false for `&&`,
left true for `||`). -/
theorem binop_evaluates_both_operands :
    (∀ (E : Env) (f : Nat) (l r : Expr) (s s₁ s₂ : St) (er : Err),
        evaluate_expression E f l s = some (s₁, .ok (.bool false)) →
        evaluate_expression E f r s₁ = some (s₂, .error er) →
        evaluate_expression E (f+1) (.binop l "&&" r) s = some (s₂, .error er))
  ∧ (∀ (E : Env) (f : Nat) (l r : Expr) (s s₁ s₂ : St) (er : Err),
        evaluate_expression E f l s = some (s₁, .ok (.bool true)) →
        evaluate_expression E f r s₁ = some (s₂, .error er) →
        evaluate_expression E (f+1) (.binop l "||" r) s = some (s₂, .error er)) := by
  constructor <;> (intro E f l r s s₁ s₂ er h1 h2; simp [evaluate_expression, h1, h2])

/-- C3 witness: the amended theorem applied to `true || (1 / 0)`,
whose right operand raises. -/
theorem binop_evaluates_both_operands_witness :
    evaluate_expression envEmpty 3
        (.binop (.boolLit true) "||" (.binop (.intLit 1) "/" (.intLit 0))) ⟨[], [], [], []⟩
      = some (⟨[], [], [], []⟩, .error (.zeroDiv "Division by zero")) :=
  binop_evaluates_both_operands.2 envEmpty 2 _ _ _ _ _ _ rfl rfl

/-- C4 counterexample: the claim says a `break` unwinds to the nearest
enclosing loop and is not intercepted by an intervening `try/catch`.
In `while (i < 1) ... try break catch(e) c = 9 ... i = i + 1 ...` the
`except Exception` clause of the `TryCatchStatement` branch catches
the `BreakException`, runs the catch block, and the loop then finishes
a full iteration: the final state has `i = 1`, `e` bound to the empty
exception message and `c = 9`, where the claim predicts an immediate
loop exit with `i = 0`. -/
theorem break_caught_by_try_counterexample :
    execute_statement envEmpty 30
        (.whileStmt (.binop (.var "i") "<" (.intLit 1))
          [ .tryCatch [.breakStmt] "e" [.assign "c" (.intLit 9)],
            .assign "i" (.binop (.var "i") "+" (.intLit 1)) ])
        ⟨[("i", .int 0)], [], [], []⟩
      = some (⟨[("i", .int 1), ("e", .str ""), ("c", .int 9)], [], [], []⟩, .norm) := rfl

/-- C4 (amended): `break` and `continue` are raised as ordinary
exceptions, so an intervening `try/catch` intercepts them before any
enclosing loop: a `try` block consisting of `break` transfers control
to the catch block with the catch variable bound to the empty message
of the control exception.  A `break` outside any loop is not rejected
at parse time; it executes to the raised control exception, which
propagates like any other error. -/
theorem break_intercepted_by_catch (E : Env) (g : Nat) (v : String) (cb : List Stmt) (s : St) :
    execute_statement E (g+3) (.tryCatch [.breakStmt] v cb) s
        = execute_block E (g+2) cb { s with local_scope := insertA s.local_scope v (.str "") }
      ∧ execute_statement E (g+1) .breakStmt s = some (s, .exn .breakExc)
      ∧ errStr .breakExc = "" :=
  ⟨rfl, rfl, rfl⟩

/-- C5 counterexample: `m` is defined only on class `A`, the
grandparent of `C` through `B`; the claim says the call `c.m()`
resolves along the entire parent chain, but `_call_method` consults
only the own table and the immediate parent, so the call fails with
the method-not-found error. -/
theorem grandparent_method_counterexample :
    evaluate_expression envChain 10 (.methodCall (.var "c") "m" [])
        ⟨[("c", .obj "c" clsC)], [], [], []⟩
      = some (⟨[("c", .obj "c" clsC)], [], [], []⟩,
          .error (.valueError "Method 'm' not found in class 'C'"))
    ∧ lookupA clsA.methods "m" = some fnRet42
    ∧ clsC.parent = some "B" ∧ clsB.parent = some "A"
    ∧ lookupA clsC.methods "m" = none ∧ lookupA clsB.methods "m" = none :=
  ⟨rfl, rfl, rfl, rfl, rfl, rfl⟩

/-- C5 (amended): method resolution looks in the object's own class
and then only in the immediate parent: when neither of those two
tables defines the method the call fails with the method-not-found
error, even if an ancestor further up the chain defines it; a method
present in the own table always wins. -/
theorem method_resolution_single_level :
    (∀ (classes : List (String × HPLClass)) (c p : HPLClass) (m : String),
        c.parent = some p.name → p.name ≠ "" → lookupA classes p.name = some p →
        lookupA c.methods m = none → lookupA p.methods m = none →
        lookupMethod classes c m = .error (.valueError (methodNotFoundMsg m c.name)))
  ∧ (∀ (classes : List (String × HPLClass)) (c : HPLClass) (m : String) (f : HPLFunction),
        lookupA c.methods m = some f → lookupMethod classes c m = .ok f) := by
  constructor
  · intro classes c p m hcp hne hlp hc hp
    simp [lookupMethod, hc, hcp, hne, hlp, hp]
  · intro classes c m f hf
    simp [lookupMethod, hf]

/-- C5 witness: the amended theorem applied to the three-level chain
whose root alone defines `m`. -/
theorem method_resolution_single_level_witness :
    lookupMethod [("A", clsA), ("B", clsB), ("C", clsC)] clsC "m"
      = .error (.valueError (methodNotFoundMsg "m" "C")) :=
  method_resolution_single_level.1 _ clsC clsB "m" rfl (by decide) rfl rfl rfl

/-- C6 counterexample: the claim says an `if` whose condition is the
non-Bool value 1 fails with `TypeError`; the `IfStatement` branch
tests the raw value with `if cond:`, so the then-branch runs and the
statement completes normally. -/
theorem if_nonbool_condition_counterexample :
    execute_statement envEmpty 5
        (.ifStmt (.intLit 1) [.assign "y" (.intLit 2)] Option.none) ⟨[], [], [], []⟩
      = some (⟨[("y", .int 2)], [], [], []⟩, .norm) := rfl

/-- C6 (amended): the branch of an `if/else` is chosen by the Python
truthiness of the condition value; non-Bool values are accepted, never
rejected with `TypeError` — any non-zero integer and any non-empty
string select the then-branch. -/
theorem if_condition_uses_truthiness (E : Env) (f : Nat) (cond : Expr)
    (tb : List Stmt) (eb : Option (List Stmt)) (s s' : St) (v : Value)
    (h : evaluate_expression E f cond s = some (s', .ok v)) :
    execute_statement E (f+1) (.ifStmt cond tb eb) s
        = (if truthy s'.heap v then execute_block E f tb s'
           else match eb with
                | some b => execute_block E f b s'
                | Option.none => some (s', .norm))
      ∧ (∀ n : Int, n ≠ 0 → truthy s'.heap (.int n) = true)
      ∧ (∀ str1 : String, str1 ≠ "" → truthy s'.heap (.str str1) = true) := by
  refine ⟨?_, ?_, ?_⟩
  · simp [execute_statement, h]
  · intro n hn; simp [truthy, hn]
  · intro str1 hs; simp [truthy, hs]

/-- C6 witness: the amended theorem applied to the condition value 7,
whose truthiness selects the then-branch. -/
theorem if_condition_uses_truthiness_witness :
    execute_statement envEmpty 4 (.ifStmt (.intLit 7) [.assign "y" (.intLit 2)] Option.none)
        ⟨[], [], [], []⟩
      = some (⟨[("y", .int 2)], [], [], []⟩, .norm) := by
  rw [(if_condition_uses_truthiness envEmpty 3 (.intLit 7) [.assign "y" (.intLit 2)]
    Option.none ⟨[], [], [], []⟩ ⟨[], [], [], []⟩ (.int 7) rfl).1]
  rfl

/-- C7: `load_module` is idempotent — a successful load stores the
module in the cache under its name, and a second load of the same name
returns the identical module record with the cache unchanged, because
the cache is consulted before any resolution step. -/
theorem load_module_idempotent (R : Resolver) (n : String) (c c' : ModCache) (m : HPLModule)
    (h : load_module R n c = .ok (m, c')) :
    load_module R n c' = .ok (m, c') ∧ lookupA c' n = some m := by
  have hc : lookupA c' n = some m := by
    unfold load_module at h
    rcases h1 : lookupA c n with _ | m0 <;> rw [h1] at h
    case some =>
      simp only [Except.ok.injEq, Prod.mk.injEq] at h
      rw [← h.2, h1, h.1]
    rcases h2 : R.stdlib n with _ | m1 <;> rw [h2] at h
    case some =>
      simp only [Except.ok.injEq, Prod.mk.injEq] at h
      rw [← h.2, ← h.1]; exact lookupA_insertA_self c n m1
    rcases h3 : R.pythonPkg n with _ | m2 <;> rw [h3] at h
    case some =>
      simp only [Except.ok.injEq, Prod.mk.injEq] at h
      rw [← h.2, ← h.1]; exact lookupA_insertA_self c n m2
    rcases h4 : R.hplFile n with _ | m3 <;> rw [h4] at h
    case some =>
      simp only [Except.ok.injEq, Prod.mk.injEq] at h
      rw [← h.2, ← h.1]; exact lookupA_insertA_self c n m3
    rcases h5 : R.pyFile n with _ | m4 <;> rw [h5] at h
    case some =>
      simp only [Except.ok.injEq, Prod.mk.injEq] at h
      rw [← h.2, ← h.1]; exact lookupA_insertA_self c n m4
    simp at h
  refine ⟨?_, hc⟩
  simp [load_module, hc]

/-- C7 witness: loading `math` against the standard-library resolver
caches it; the theorem applied to that first load shows the second
load returns the same record and leaves the cache unchanged. -/
theorem load_module_idempotent_witness :
    load_module mathResolver "math" [("math", mathMod)] = .ok (mathMod, [("math", mathMod)])
      ∧ lookupA [("math", mathMod)] "math" = some mathMod :=
  load_module_idempotent mathResolver "math" [] [("math", mathMod)] mathMod rfl

/-- C8 counterexample: the claim says a function-definition line whose
brace-balanced region is still open at end of file makes preprocessing
fail; on the two-line source `main: () => ` + open brace + `x = 1`,
whose net brace count stays 1 at end of input, `preprocess_functions`
returns normally, silently emitting the truncated body as a literal
block. -/
theorem unterminated_body_counterexample :
    preprocess_functions ("main: () => " ++ String.mk [openBrace] ++ "\nx = 1")
        = "main: |\n  () => " ++ String.mk [openBrace] ++ "\n  x = 1"
      ∧ braceDelta ("main: () => " ++ String.mk [openBrace]) + braceDelta "x = 1" = 1 :=
  ⟨rfl, rfl⟩

/-- C8 (amended): when the brace count stays positive through the rest
of the input (the region is still open at end of file), the
body-collection loop simply consumes every remaining line and returns
it as the function body — preprocessing reports no error and rewrites
the truncated body as a literal block. -/
theorem unterminated_body_consumed_silently (bc : Int) (ls : List String)
    (h : ∀ k, k < ls.length → 0 < bc + sumDeltas (ls.take k)) :
    collectBody bc ls = (ls, []) := by
  induction ls generalizing bc with
  | nil => rfl
  | cons l rest ih =>
    have h0 : 0 < bc := by simpa [sumDeltas] using h 0 (by simp)
    have hrec : ∀ k, k < rest.length → 0 < (bc + braceDelta l) + sumDeltas (rest.take k) := by
      intro k hk
      have hx := h (k+1) (by simpa using Nat.succ_lt_succ hk)
      simp [sumDeltas] at hx ⊢
      omega
    simp [collectBody, h0, ih (bc + braceDelta l) hrec]

/-- C8 witness: the collection theorem applied to one remaining line
under an open brace count of 1. -/
theorem unterminated_body_consumed_silently_witness :
    collectBody 1 ["x = 1"] = (["x = 1"], []) :=
  unterminated_body_consumed_silently 1 ["x = 1"] (by
    intro k hk
    simp [Nat.lt_one_iff] at hk
    subst hk
    decide)

/-- C10: calling with fewer arguments than parameters binds exactly
the first `len(args)` parameters in the fresh frame (parameter `i`
gets argument `i`), leaves the remaining parameters unbound there,
silently discards arguments beyond the parameter list, and a later
read of a name bound in neither scope raises the undefined-variable
error. -/
theorem call_arity_binding :
    (∀ (params : List String) (args : List Value), params.Nodup →
       ∀ (i : Nat) (hi : i < params.length), i < args.length →
         lookupA (bindParams params args) (params.get ⟨i, hi⟩) = args.get? i)
  ∧ (∀ (params : List String) (args : List Value), params.Nodup →
       ∀ (j : Nat) (hj : j < params.length), args.length ≤ j →
         lookupA (bindParams params args) (params.get ⟨j, hj⟩) = none)
  ∧ (∀ (params : List String) (args : List Value),
       bindParams params args = bindParams params (args.take params.length))
  ∧ (∀ (name : String) (s : St), lookupA s.local_scope name = none →
       lookupA s.global_scope name = none →
       lookup_variable name s = .error (.valueError ("Undefined variable: '" ++ name ++ "'"))) := by
  refine ⟨?_, ?_, ?_, ?_⟩
  · intro params args hnd i hi ha
    rw [bindParams_eq_zip params args hnd]
    exact lookupA_zip_get params args hnd i hi ha
  · intro params args hnd j hj ha
    rw [bindParams_eq_zip params args hnd]
    exact lookupA_zip_get_none params args hnd j hj ha
  · intro params args
    unfold bindParams
    rw [zip_take_self]
  · intro name s h1 h2
    simp [lookup_variable, h1, h2]

/-- C10 witness: the binding theorem applied to a two-parameter
method called with one argument (and with three arguments for the
discard clause), plus the undefined-variable read of the unbound
second parameter. -/
theorem call_arity_binding_witness :
    lookupA (bindParams ["a", "b"] [.int 5]) "a" = some (.int 5)
      ∧ lookupA (bindParams ["a", "b"] [.int 5]) "b" = none
      ∧ bindParams ["a", "b"] [.int 5, .int 6, .int 7]
          = bindParams ["a", "b"] [.int 5, .int 6]
      ∧ lookup_variable "b" ⟨bindParams ["a", "b"] [.int 5], [], [], []⟩
          = .error (.valueError "Undefined variable: 'b'") := by
  refine ⟨?_, ?_, ?_, ?_⟩
  · exact call_arity_binding.1 ["a", "b"] [.int 5] (by decide) 0 (by decide) (by decide)
  · exact call_arity_binding.2.1 ["a", "b"] [.int 5] (by decide) 1 (by decide) (by decide)
  · exact call_arity_binding.2.2.1 ["a", "b"] [.int 5, .int 6, .int 7]
  · exact call_arity_binding.2.2.2 "b" ⟨bindParams ["a", "b"] [.int 5], [], [], []⟩ rfl rfl

end HPL
